import Mathlib

/-!
# Verification of the depbackend map-rendering engine

Shallow embedding of `src/pylib/depbackend/auto/mapper.py`: the data
pipeline of `make_map` (freshness gate, region scoping, the three
aggregation modes of the SQL queries, color-bin selection, the
progress-bar / crude-unit annotators) and the helpers `get_ts_ts2` and
`get_mckey`.  Numeric values are modelled by `ℚ`, SQL/pandas missing
values by `Option`, and raised Python exceptions by `Except` / `Option`.
-/

namespace Depbackend

/-- A calendar date, as Python's `datetime.date` triple. -/
structure DateT where
  year : Nat
  month : Nat
  day : Nat
deriving DecidableEq, Repr

/-- Strict order on dates (lexicographic on year, month, day), the
order `valid < ts` / `ts > lastts` used by SQL and Python comparisons. -/
def dateLT (a b : DateT) : Bool :=
  a.year < b.year ||
    (a.year == b.year &&
      (a.month < b.month || (a.month == b.month && a.day < b.day)))

/-- Non-strict order on dates, as used by SQL `between`. -/
def dateLE (a b : DateT) : Bool :=
  dateLT a b || a == b

/-- `to_char(valid, 'mmdd')` comparisons: the four-character zero-padded
month/day string compares lexicographically exactly like this code. -/
def mdCode (d : DateT) : Nat :=
  d.month * 100 + d.day

/-- Is `year` a Gregorian leap year (Python `calendar` rule). -/
def isLeap (year : Nat) : Bool :=
  year % 4 == 0 && (year % 100 != 0 || year % 400 == 0)

/-- Days in a month, as enforced by Python's `datetime.date`. -/
def daysInMonth (year month : Nat) : Nat :=
  if month == 2 then (if isLeap year then 29 else 28)
  else if month == 4 || month == 6 || month == 9 || month == 11 then 30
  else 31

/-- Validity condition of Python's `datetime.date(year, month, day)`
constructor (which raises `ValueError` otherwise). -/
def isValidDate (year month day : Nat) : Bool :=
  1 ≤ year && year ≤ 9999 && 1 ≤ month && month ≤ 12 &&
    1 ≤ day && day ≤ daysInMonth year month

/-- Python `date(year, month, day)`: `none` models the raised
`ValueError` on an invalid calendar date. -/
def mkDate (year month day : Nat) : Option DateT :=
  if isValidDate year month day then some ⟨year, month, day⟩ else none

/-- The calendar day after `x` (used to state the freshness-gate
boundary cases; total on valid dates). -/
def nextDay (x : DateT) : DateT :=
  if x.day < daysInMonth x.year x.month then ⟨x.year, x.month, x.day + 1⟩
  else if x.month < 12 then ⟨x.year, x.month + 1, 1⟩
  else ⟨x.year + 1, 1, 1⟩

/-- The request environment produced by the `Schema` CGI model
(`dpi`, date fields, `scenario`, `v`, `huc`, `zoom` and the boolean
flags).  `year2/month2/day2` default to `None`. -/
structure Env where
  dpi : Nat
  year : Nat
  month : Nat
  day : Nat
  year2 : Option Nat
  month2 : Option Nat
  day2 : Option Nat
  scenario : Int
  v : String
  huc : Option String
  zoom : ℚ
  overview : Bool
  averaged : Bool
  progressbar : Bool
  cruse : Bool
  iowa : Bool
  mn : Bool
deriving DecidableEq, Repr

deriving instance DecidableEq for Except

/-- `V2MULTI`: the fixed unit multiplier per variable code
(`1.0 / 25.4` is the exact rational `10 / 254`).  In the source this is
a dict literal; unlisted keys raise `KeyError` and are unreachable for
validated requests. -/
def V2MULTI (v : String) : ℚ :=
  if v == "avg_loss" then 4463 / 1000
  else if v == "qc_precip" then 10 / 254
  else if v == "avg_delivery" then 4463 / 1000
  else if v == "avg_runoff" then 10 / 254
  else 1

/-- One row of the `results_by_huc12` metric table, restricted to the
single variable column `v` the query reads. -/
structure Row where
  huc12 : String
  scenario : Int
  valid : DateT
  value : ℚ
deriving DecidableEq, Repr

/-- One row of the `huc12` geometry table: identifier, state membership
(the `states` column, modelled as the set of state codes the regex
`~* 'IA'` / `~* 'MN'` would match), and the two static categorical
attribute columns. -/
structure Region where
  huc12 : String
  states : List String
  dominantTillage : ℚ
  avgSlopeRatio : ℚ
deriving DecidableEq, Repr

/-- The `huclimiter` scope filter of `make_map`: HUC8 prefix match for
an 8-character id, HUC12 exact match for a 12-character id, plus the
optional Iowa / Minnesota state restrictions. -/
def regionScope (huc : Option String) (iowa mn : Bool)
    (regions : List Region) : List Region :=
  regions.filter fun i =>
    (match huc with
      | none => true
      | some h =>
        if h.length == 8 then i.huc12.take 8 == h
        else if h.length == 12 then i.huc12 == h
        else true) &&
    (!iowa || i.states.contains "IA") &&
    (!mn || i.states.contains "MN")

/-- WHERE clause of the non-averaged (period sum) CTE:
`scenario = :scenario and valid between :ts and :ts2`. -/
def periodPred (scenario : Int) (ts ts2 : DateT) (r : Row) : Bool :=
  r.scenario == scenario && dateLE ts r.valid && dateLE r.valid ts2

/-- WHERE clause of the averaged CTE: additionally
`to_char(valid, 'mmdd') between :sday1 and :sday2`. -/
def avgPred (scenario : Int) (ts ts2 : DateT) (r : Row) : Bool :=
  r.scenario == scenario &&
    decide (mdCode ts ≤ mdCode r.valid) &&
    decide (mdCode r.valid ≤ mdCode ts2) &&
    dateLE ts r.valid && dateLE r.valid ts2

/-- `sum({v})` over a list of fetched rows. -/
def sumValues (rows : List Row) : ℚ :=
  (rows.map Row.value).sum

/-- `GROUP BY huc_12` with aggregate `f` of each group: one pair per
distinct identifier among `rows`. -/
def groupByHuc (rows : List Row) (f : List Row → ℚ) :
    List (String × ℚ) :=
  ((rows.map Row.huc12).dedup).map fun h =>
    (h, f (rows.filter fun r => r.huc12 == h))

/-- The non-averaged CTE `data`:
`SELECT huc_12, sum({v}) as d ... GROUP by huc_12`. -/
def ctePeriod (rows : List Row) (scenario : Int) (ts ts2 : DateT) :
    List (String × ℚ) :=
  groupByHuc (rows.filter (periodPred scenario ts ts2)) sumValues

/-- The averaged CTE `data`:
`SELECT huc_12, sum({v}) / 10. as d ... GROUP by huc_12`. -/
def cteAveraged (rows : List Row) (scenario : Int) (ts ts2 : DateT) :
    List (String × ℚ) :=
  groupByHuc (rows.filter (avgPred scenario ts ts2))
    (fun g => sumValues g / 10)

/-- Outer SELECT of both continuous queries:
`huc12 i LEFT JOIN data d ON (i.huc_12 = d.huc_12)` with
`coalesce(d.d, 0) * :dbcol as data`. -/
def leftJoinRegions (hucs : List Region) (cte : List (String × ℚ))
    (dbcol : ℚ) : List (String × ℚ) :=
  hucs.map fun i => (i.huc12, ((cte.lookup i.huc12).getD 0) * dbcol)

/-- The categorical query: `dominant_tillage` for `"dt"`,
`average_slope_ratio` for `"slp"`, straight off the `huc12` table. -/
def catAgg (v : String) (hucs : List Region) : List (String × ℚ) :=
  hucs.map fun i =>
    (i.huc12, if v == "dt" then i.dominantTillage else i.avgSlopeRatio)

/-- The hard floor `date(2007, 1, 1)`. -/
def floorDate : DateT := ⟨2007, 1, 1⟩

/-- The store's last-available-date marker (`properties` key
`last_date_0`); an absent row defaults to `datetime(2007, 1, 1)`. -/
def lastDate (marker : Option DateT) : DateT :=
  marker.getD floorDate

/-- The freshness gate of `make_map`:
`if ts > lastts.date() or ts2 > lastts.date() or ts < floor`. -/
def gateFails (ts ts2 : DateT) (marker : Option DateT) : Bool :=
  dateLT (lastDate marker) ts || dateLT (lastDate marker) ts2 ||
    dateLT ts floorDate

/-- The data phase of `make_map`: freshness gate, then one of the three
aggregate queries against the scenario's region set and metric rows,
then the `df.empty` NoData check.  (The `huc12_scenario` resolution is
modelled by `regions` already being that scenario's geometry rows.) -/
def makeMapData (env : Env) (marker : Option DateT)
    (regions : List Region) (rows : List Row) (ts ts2 : DateT) :
    Except String (List (String × ℚ)) :=
  if gateFails ts ts2 marker then
    .error "Data Not Availale Yet, check back later."
  else
    let hucs := regionScope env.huc env.iowa env.mn regions
    let df :=
      if env.v == "dt" || env.v == "slp" then catAgg env.v hucs
      else if env.averaged then
        leftJoinRegions hucs (cteAveraged rows env.scenario ts ts2)
          (V2MULTI env.v)
      else
        leftJoinRegions hucs (ctePeriod rows env.scenario ts ts2)
          (V2MULTI env.v)
    if df.isEmpty then .error "No Data Found for this scenario and date"
    else .ok df

/-- Modelled from the spec: `pyiem.plot.util.pretty_bins`, the external
"nice round numbers" binning algorithm (pyiem is an external
collaborator, not under `src/`), which regenerates a fixed-size ordered
sequence of edges spanning `lo` to `hi`.  Modelled as nine evenly
spaced edges; the claims use only that the sequence starts at `lo`,
ends at `hi`, and its later edges are positive when `0 = lo < hi`. -/
def pretty_bins (lo hi : ℚ) : List ℚ :=
  (List.range 9).map fun i : Nat => lo + (hi - lo) * (i : ℚ) / 8

/-- Color-bin selection of `make_map`: base ramp by window shape
(`RAMPS["english"][0]` for a single day, `RAMPS["english"][1]`
otherwise — the two pyiem ramps are passed in as `rampDaily` and
`rampPeriod`), the 95th-percentile adaptive regeneration with the
bottom edge forced to `0.01`, then the fixed categorical overrides.
`p95` is `df["data"].describe(percentiles=[0.95])["95%"]`, with `none`
for pandas `NaN`. -/
def chooseBins (rampDaily rampPeriod : List ℚ) (ts ts2 : DateT)
    (v : String) (p95 : Option ℚ) : List ℚ :=
  let bins := if ts = ts2 then rampDaily else rampPeriod
  let bins :=
    match p95 with
    | none => bins
    | some p =>
      if p > bins.getLastD 0 then (pretty_bins 0 p).set 0 (1 / 100)
      else bins
  if v == "dt" then [1, 2, 3, 4, 5, 6, 7]
  else if v == "slp" then [0, 1 / 100, 3 / 100, 1 / 20, 7 / 100, 1 / 10, 1 / 2]
  else bins

/-- Modelled from the spec: the boundary normalization performed by
matplotlib's `BoundaryNorm` (an external collaborator), which the spec
describes as "mapping a continuous value to a discrete color index via
ordered bin edges".  `some i` when `edges[i] ≤ x < edges[i+1]`; `none`
when `x` lies below the first edge or at/above the last (the
out-of-range under/over cases, i.e. unclassified by the bins). -/
def binIndex (edges : List ℚ) (x : ℚ) : Option Nat :=
  (List.range (edges.length - 1)).find? fun i =>
    decide (edges.getD i 0 ≤ x) && decide (x < edges.getD (i + 1) 0)

/-- `df["data"].mean()` over the realized per-region values. -/
def listMean (l : List ℚ) : ℚ :=
  l.sum / l.length

/-- The crude-unit overlay step of `make_map`: guarded by
`environ["cruse"]`, it computes `depth = avgval / 5.0` and renders the
badge.  When `avgval` is still `None` (no progress bar ran), the
division raises `TypeError`, modelled by `Except.error`; the result
carries the rendered badge value, `none` for no badge. -/
def cruseStep (cruse : Bool) (avgval : Option ℚ) :
    Except String (Option ℚ) :=
  if cruse then
    match avgval with
    | none => .error "TypeError: unsupported operand type(s) for /"
    | some a => .ok (some (a / 5))
  else .ok none

/-- The annotator phase of `make_map` after the map is drawn:
`avgval = None`, set to `df["data"].mean()` only when
`environ["progressbar"]`, then the crude-unit step. -/
def annotatorPhase (progressbar cruse : Bool) (data : List ℚ) :
    Except String (Option ℚ) :=
  let avgval : Option ℚ := if progressbar then some (listMean data) else none
  cruseStep cruse avgval

/-- `get_ts_ts2`: each end-date component defaults to the matching
start-date component when absent, and the two `date(...)` constructions
may raise (modelled by `Option`).  No ordering of the two dates is
checked or established. -/
def getTsTs2 (env : Env) : Option (DateT × DateT) :=
  let year2 := env.year2.getD env.year
  let month2 := env.month2.getD env.month
  let day2 := env.day2.getD env.day
  match mkDate env.year env.month env.day, mkDate year2 month2 day2 with
  | some ts, some ts2 => some (ts, ts2)
  | _, _ => none

/-- One decimal digit as a character. -/
def digitChar (d : Nat) : Char :=
  match d with
  | 0 => '0' | 1 => '1' | 2 => '2' | 3 => '3' | 4 => '4'
  | 5 => '5' | 6 => '6' | 7 => '7' | 8 => '8' | 9 => '9'
  | _ => '*'

/-- Decimal rendering of a natural number (Python `str`/`%d`),
most-significant digit first. -/
def natChars (n : Nat) : List Char :=
  if n = 0 then ['0'] else ((Nat.digits 10 n).map digitChar).reverse

/-- Two-digit zero-padded rendering (Python `%m` / `%d` date fields). -/
def pad2 (n : Nat) : List Char :=
  if n < 10 then '0' :: natChars n else natChars n

/-- `f"{ts:%Y%m%d}"`: year, then zero-padded month and day. -/
def dateChars (d : DateT) : List Char :=
  natChars d.year ++ pad2 d.month ++ pad2 d.day

/-- Decimal rendering of a Python `int` (the scenario id). -/
def intChars (i : Int) : List Char :=
  if i < 0 then '-' :: natChars i.natAbs else natChars i.toNat

/-- `f"{environ['huc']}"`: a `None` huc renders as the text `None`. -/
def fmtHuc (huc : Option String) : List Char :=
  match huc with
  | none => "None".data
  | some h => h.data

/-- Rendering of the `zoom` float in the overview cache key.  Only
congruence (equal zooms give equal text) is used by the claims, so the
exact float formatting is immaterial; modelled from the reduced
numerator and denominator of the rational. -/
def fmtZoom (z : ℚ) : List Char :=
  intChars z.num ++ ('.' :: natChars z.den)

/-- `get_mckey`: the memcache key.  The date resolution runs first (so
an invalid date propagates its error, `none` here), then the
non-overview key `/auto/map.py/{huc}/{ts:%Y%m%d}/{ts2:%Y%m%d}/`
`{scenario}/{v}` is replaced by `/auto/map.py/{huc}/{zoom}` in
overview mode. -/
def getMckey (env : Env) : Option String :=
  match getTsTs2 env with
  | none => none
  | some (ts, ts2) =>
    if env.overview then
      some (String.mk ("/auto/map.py/".data ++ fmtHuc env.huc ++
        ('/' :: fmtZoom env.zoom)))
    else
      some (String.mk ("/auto/map.py/".data ++ (fmtHuc env.huc ++
        (('/' :: dateChars ts) ++ (('/' :: dateChars ts2) ++
        (('/' :: intChars env.scenario) ++ ('/' :: env.v.data)))))))

/-- A HUC identifier as the spec types it: a string of decimal digits
(8- or 12-digit region codes). -/
def digitString (s : String) : Prop :=
  ∀ c ∈ s.data, c.isDigit = true

/-- The optional huc field of a request, with any present id a digit
string. -/
def hucOK (huc : Option String) : Prop :=
  ∀ h, huc = some h → digitString h

theorem dateLT_iff (a b : DateT) :
    dateLT a b = true ↔ (a.year < b.year ∨ (a.year = b.year ∧
      (a.month < b.month ∨ (a.month = b.month ∧ a.day < b.day)))) := by
  simp [dateLT]

theorem dateLT_false_iff (a b : DateT) :
    dateLT a b = false ↔ ¬(a.year < b.year ∨ (a.year = b.year ∧
      (a.month < b.month ∨ (a.month = b.month ∧ a.day < b.day)))) := by
  rw [← Bool.not_eq_true, dateLT_iff]

theorem dateLE_iff (a b : DateT) :
    dateLE a b = true ↔ (a.year < b.year ∨ (a.year = b.year ∧
      (a.month < b.month ∨ (a.month = b.month ∧ a.day ≤ b.day)))) := by
  obtain ⟨ya, ma, da⟩ := a
  obtain ⟨yb, mb, db⟩ := b
  simp [dateLE, dateLT, DateT.mk.injEq]
  omega

theorem dateLT_nextDay (x : DateT) : dateLT x (nextDay x) = true := by
  obtain ⟨y, m, d⟩ := x
  simp only [nextDay]
  split_ifs <;> simp [dateLT]

/-- Claim C4: `make_map` raises NoData before any aggregate query is
issued exactly when `start_date` or `end_date` exceeds the
last-available-date marker or `start_date` precedes the fixed floor
2007-01-01 (the marker defaulting to 2007-01-01 when absent): the
failure is independent of the store's rows and regions, the gate
condition is exactly the claimed disjunction, a start one calendar day
after the marker fails, and a start exactly equal to the marker passes
the gate. -/
theorem freshness_gate_correct :
    (∀ env marker regions rows ts ts2, gateFails ts ts2 marker = true →
      makeMapData env marker regions rows ts ts2 =
        .error "Data Not Availale Yet, check back later.") ∧
    (∀ ts ts2 marker, gateFails ts ts2 marker = true ↔
      (dateLT (lastDate marker) ts = true ∨
        dateLT (lastDate marker) ts2 = true ∨
        dateLT ts floorDate = true)) ∧
    (∀ marker ts2, gateFails (nextDay (lastDate marker)) ts2 marker = true) ∧
    (∀ marker ts2, dateLE floorDate (lastDate marker) = true →
      dateLE ts2 (lastDate marker) = true →
      gateFails (lastDate marker) ts2 marker = false) := by
  refine ⟨?_, ?_, ?_, ?_⟩
  · intro env marker regions rows ts ts2 hg
    simp [makeMapData, hg]
  · intro ts ts2 marker
    simp [gateFails, or_assoc]
  · intro marker ts2
    simp [gateFails, dateLT_nextDay]
  · intro marker ts2 h1 h2
    rw [dateLE_iff] at h1 h2
    simp only [gateFails, Bool.or_eq_false_iff]
    refine ⟨⟨?_, ?_⟩, ?_⟩ <;> rw [dateLT_false_iff] <;> omega

/-- Witness for C4 at concrete inputs: with the marker at 2024-01-01, a
2024-01-02 start fails (and `make_map` fails on arbitrary data), while
a start and end of exactly 2024-01-01 passes the gate. -/
theorem freshness_gate_correct_witness :
    gateFails ⟨2024, 1, 2⟩ ⟨2024, 1, 2⟩ (some ⟨2024, 1, 1⟩) = true ∧
    gateFails ⟨2024, 1, 1⟩ ⟨2024, 1, 1⟩ (some ⟨2024, 1, 1⟩) = false ∧
    makeMapData
      ⟨100, 2024, 1, 2, none, none, none, 0, "avg_loss", none, 10,
        false, false, false, false, false, false⟩
      (some ⟨2024, 1, 1⟩) [] [] ⟨2024, 1, 2⟩ ⟨2024, 1, 2⟩ =
      .error "Data Not Availale Yet, check back later." := by
  have h1 := freshness_gate_correct.2.2.1 (some ⟨2024, 1, 1⟩) ⟨2024, 1, 2⟩
  have h2 := freshness_gate_correct.2.2.2 (some ⟨2024, 1, 1⟩) ⟨2024, 1, 1⟩
    (by decide) (by decide)
  refine ⟨by simpa [nextDay, lastDate, daysInMonth] using h1, by simpa [lastDate] using h2, ?_⟩
  exact freshness_gate_correct.1 _ _ _ _ _ _
    (by simpa [nextDay, lastDate, daysInMonth] using h1)

/-- Claim C5: for a categorical variable the final bins are the fixed
sequence `1..7` for `"dt"` and `[0, 0.01, 0.03, 0.05, 0.07, 0.1, 0.5]`
for `"slp"`, for every base ramp, window and realized 95th percentile —
the percentile-based rebinning never affects the result. -/
theorem categorical_bins_fixed :
    ∀ (rampDaily rampPeriod : List ℚ) (ts ts2 : DateT) (p95 : Option ℚ),
      chooseBins rampDaily rampPeriod ts ts2 "dt" p95 =
        [1, 2, 3, 4, 5, 6, 7] ∧
      chooseBins rampDaily rampPeriod ts ts2 "slp" p95 =
        [0, 1 / 100, 3 / 100, 1 / 20, 7 / 100, 1 / 10, 1 / 2] := by
  intro rampDaily rampPeriod ts ts2 p95
  constructor <;> simp [chooseBins]

/-- Claim C6: for a continuous variable whose realized 95th percentile
is missing (NaN) or at most the top edge of the base ramp, the final
bins equal the base ramp unchanged, and the base ramp is the daily ramp
exactly when `start_date = end_date` (the period ramp otherwise). -/
theorem base_ramp_unchanged (rampDaily rampPeriod : List ℚ)
    (ts ts2 : DateT) (v : String) (p95 : Option ℚ)
    (hdt : v ≠ "dt") (hslp : v ≠ "slp")
    (hp : p95 = none ∨ ∃ p, p95 = some p ∧
      p ≤ (if ts = ts2 then rampDaily else rampPeriod).getLastD 0) :
    chooseBins rampDaily rampPeriod ts ts2 v p95 =
      (if ts = ts2 then rampDaily else rampPeriod) := by
  have h1 : (v == "dt") = false := by simp [hdt]
  have h2 : (v == "slp") = false := by simp [hslp]
  rcases hp with hp | ⟨p, hp, hle⟩ <;> subst hp
  · simp [chooseBins, h1, h2]
  · have hle' : p ≤ (if ts = ts2 then rampDaily else rampPeriod).getLast?.getD 0 := by
      simpa using hle
    simp [chooseBins, h1, h2, not_lt.mpr hle']

/-- Witness for C6: a single-day window with percentile below the top
edge keeps the daily ramp `[0, 1, 2]`. -/
theorem base_ramp_unchanged_witness :
    chooseBins [0, 1, 2] [0, 5, 9] ⟨2020, 6, 1⟩ ⟨2020, 6, 1⟩ "avg_loss"
      (some (3 / 2)) = [0, 1, 2] := by
  have h := base_ramp_unchanged [0, 1, 2] [0, 5, 9] ⟨2020, 6, 1⟩
    ⟨2020, 6, 1⟩ "avg_loss" (some (3 / 2)) (by decide) (by decide)
    (Or.inr ⟨3 / 2, rfl, by norm_num⟩)
  simpa using h

theorem lookup_keyed (l : List String) (g : String → ℚ) (r : String) :
    (l.map fun h => (h, g h)).lookup r =
      if r ∈ l then some (g r) else none := by
  induction l with
  | nil => simp
  | cons a t ih =>
    simp only [List.map_cons, List.lookup_cons]
    by_cases h : r = a
    · subst h
      simp
    · have hba : (r == a) = false := by simp [h]
      simp [hba, ih, h]

theorem lookup_groupByHuc (rows : List Row) (f : List Row → ℚ)
    (r : String) :
    (groupByHuc rows f).lookup r =
      if r ∈ rows.map Row.huc12 then
        some (f (rows.filter fun x => x.huc12 == r))
      else none := by
  unfold groupByHuc
  rw [lookup_keyed]
  simp [List.mem_dedup]

theorem leftJoin_groupBy (hs : List Region) (rows : List Row)
    (p : Row → Bool) (f : List Row → ℚ) (dbcol : ℚ) (hf : f [] = 0) :
    leftJoinRegions hs (groupByHuc (rows.filter p) f) dbcol =
      hs.map fun i =>
        (i.huc12,
          f (rows.filter fun r => r.huc12 == i.huc12 && p r) * dbcol) := by
  unfold leftJoinRegions
  simp only [List.map_inj_left]
  intro i _
  rw [lookup_groupByHuc]
  by_cases h : i.huc12 ∈ (rows.filter p).map Row.huc12
  · rw [if_pos h]
    simp only [Option.getD_some]
    rw [List.filter_filter]
  · rw [if_neg h]
    simp only [Option.getD_none]
    have hnil : rows.filter (fun r => r.huc12 == i.huc12 && p r) = [] := by
      rw [List.filter_eq_nil_iff]
      intro a ha hpa
      have h1 : (a.huc12 == i.huc12) = true ∧ p a = true := by
        simpa using hpa
      exact h (List.mem_map.mpr
        ⟨a, List.mem_filter.mpr ⟨ha, h1.2⟩, by simpa using h1.1⟩)
    rw [hnil, hf, zero_mul]

/-- Claim C1: for a continuous variable (`v` not `"dt"`/`"slp"`) with
`averaged == false`, the aggregate result pairs each scoped region with
the sum of the variable's rows dated between `start_date` and
`end_date` inclusive (left-join semantics: a region with no matching
rows gets the empty sum 0), multiplied exactly once by the variable's
fixed unit multiplier, which is `4.463` for `avg_loss`. -/
theorem period_sum_correct (env : Env) (marker : Option DateT)
    (regions : List Region) (rows : List Row) (ts ts2 : DateT)
    (hdt : env.v ≠ "dt") (hslp : env.v ≠ "slp")
    (hav : env.averaged = false)
    (hg : gateFails ts ts2 marker = false)
    (hne : regionScope env.huc env.iowa env.mn regions ≠ []) :
    makeMapData env marker regions rows ts ts2 =
      .ok ((regionScope env.huc env.iowa env.mn regions).map
        (fun i => (i.huc12,
          sumValues (rows.filter fun r =>
            r.huc12 == i.huc12 && periodPred env.scenario ts ts2 r) *
            V2MULTI env.v))) ∧
    V2MULTI "avg_loss" = 4463 / 1000 := by
  have hv1 : (env.v == "dt") = false := by simp [hdt]
  have hv2 : (env.v == "slp") = false := by simp [hslp]
  refine ⟨?_, by simp [V2MULTI]⟩
  unfold makeMapData ctePeriod
  simp only [hv1, hv2, hav, hg, Bool.or_self, Bool.false_eq_true,
    if_false, if_true]
  rw [leftJoin_groupBy _ _ _ _ _ (by simp [sumValues])]
  simp [List.isEmpty_iff, hne]

/-- Witness for C1: one region, two rows on consecutive days, a
single-day window 2020-06-01; only that day's value 2 is summed and
multiplied once by 4.463. -/
theorem period_sum_correct_witness :
    makeMapData
        ⟨100, 2020, 6, 1, none, none, none, 0, "avg_loss", none, 10,
          false, false, false, false, false, false⟩
        (some ⟨2024, 1, 1⟩)
        [⟨"070801050306", [], 3, 0⟩]
        [⟨"070801050306", 0, ⟨2020, 6, 1⟩, 2⟩,
          ⟨"070801050306", 0, ⟨2020, 6, 2⟩, 7⟩]
        ⟨2020, 6, 1⟩ ⟨2020, 6, 1⟩ =
      .ok ((regionScope none false false
          [⟨"070801050306", [], 3, 0⟩]).map
        (fun i => (i.huc12,
          sumValues (([⟨"070801050306", 0, ⟨2020, 6, 1⟩, 2⟩,
            ⟨"070801050306", 0, ⟨2020, 6, 2⟩, 7⟩] : List Row).filter
              fun r => r.huc12 == i.huc12 &&
                periodPred 0 ⟨2020, 6, 1⟩ ⟨2020, 6, 1⟩ r) *
            V2MULTI "avg_loss"))) ∧
    V2MULTI "avg_loss" = 4463 / 1000 :=
  period_sum_correct
    ⟨100, 2020, 6, 1, none, none, none, 0, "avg_loss", none, 10,
      false, false, false, false, false, false⟩
    (some ⟨2024, 1, 1⟩)
    [⟨"070801050306", [], 3, 0⟩]
    [⟨"070801050306", 0, ⟨2020, 6, 1⟩, 2⟩,
      ⟨"070801050306", 0, ⟨2020, 6, 2⟩, 7⟩]
    ⟨2020, 6, 1⟩ ⟨2020, 6, 1⟩
    (by decide) (by decide) rfl (by decide) (by decide)

/-- Claim C2: for a continuous variable with `averaged == true`, the
aggregate result restricts to rows whose month/day code lies within the
window's month/day sub-range and whose date lies within
`[start_date, end_date]`, sums per region, divides by 10, left-joins
onto the scoped region set (missing regions become 0) and multiplies by
the variable's unit multiplier. -/
theorem averaged_agg_correct (env : Env) (marker : Option DateT)
    (regions : List Region) (rows : List Row) (ts ts2 : DateT)
    (hdt : env.v ≠ "dt") (hslp : env.v ≠ "slp")
    (hav : env.averaged = true)
    (hg : gateFails ts ts2 marker = false)
    (hne : regionScope env.huc env.iowa env.mn regions ≠ []) :
    makeMapData env marker regions rows ts ts2 =
      .ok ((regionScope env.huc env.iowa env.mn regions).map
        (fun i => (i.huc12,
          sumValues (rows.filter fun r =>
            r.huc12 == i.huc12 && avgPred env.scenario ts ts2 r) / 10 *
            V2MULTI env.v))) := by
  have hv1 : (env.v == "dt") = false := by simp [hdt]
  have hv2 : (env.v == "slp") = false := by simp [hslp]
  unfold makeMapData cteAveraged
  simp only [hv1, hv2, hav, hg, Bool.or_self, Bool.false_eq_true,
    if_false, if_true]
  rw [leftJoin_groupBy _ _ _ _ _ (by simp [sumValues])]
  simp [List.isEmpty_iff, hne]

/-- Witness for C2: a 2016-2017 window restricted to the June 1 - June 2
day-of-year range sums the in-range rows per region, divides by 10 and
multiplies by 4.463. -/
theorem averaged_agg_correct_witness :
    makeMapData
        ⟨100, 2016, 6, 1, some 2017, none, some 2, 0, "avg_loss", none,
          10, false, true, false, false, false, false⟩
        (some ⟨2024, 1, 1⟩)
        [⟨"070801050306", [], 3, 0⟩]
        [⟨"070801050306", 0, ⟨2016, 6, 1⟩, 2⟩,
          ⟨"070801050306", 0, ⟨2017, 6, 2⟩, 7⟩,
          ⟨"070801050306", 0, ⟨2019, 6, 1⟩, 50⟩]
        ⟨2016, 6, 1⟩ ⟨2017, 6, 2⟩ =
      .ok ((regionScope none false false
          [⟨"070801050306", [], 3, 0⟩]).map
        (fun i => (i.huc12,
          sumValues (([⟨"070801050306", 0, ⟨2016, 6, 1⟩, 2⟩,
            ⟨"070801050306", 0, ⟨2017, 6, 2⟩, 7⟩,
            ⟨"070801050306", 0, ⟨2019, 6, 1⟩, 50⟩] : List Row).filter
              fun r => r.huc12 == i.huc12 &&
                avgPred 0 ⟨2016, 6, 1⟩ ⟨2017, 6, 2⟩ r) / 10 *
            V2MULTI "avg_loss"))) :=
  averaged_agg_correct
    ⟨100, 2016, 6, 1, some 2017, none, some 2, 0, "avg_loss", none, 10,
      false, true, false, false, false, false⟩
    (some ⟨2024, 1, 1⟩)
    [⟨"070801050306", [], 3, 0⟩]
    [⟨"070801050306", 0, ⟨2016, 6, 1⟩, 2⟩,
      ⟨"070801050306", 0, ⟨2017, 6, 2⟩, 7⟩,
      ⟨"070801050306", 0, ⟨2019, 6, 1⟩, 50⟩]
    ⟨2016, 6, 1⟩ ⟨2017, 6, 2⟩
    (by decide) (by decide) rfl (by decide) (by decide)

theorem pretty_bins_length (lo hi : ℚ) : (pretty_bins lo hi).length = 9 := by
  unfold pretty_bins
  rw [List.length_map, List.length_range]

theorem pretty_bins_getD (lo hi : ℚ) (i : Nat) (h : i < 9) :
    (pretty_bins lo hi).getD i 0 = lo + (hi - lo) * i / 8 := by
  unfold pretty_bins
  rw [List.getD_eq_getElem?_getD, List.getElem?_map, List.getElem?_range h]
  rfl

theorem set_pretty_bins_getD_zero (p : ℚ) :
    ((pretty_bins 0 p).set 0 (1 / 100)).getD 0 0 = 1 / 100 := by
  rw [List.getD_eq_getElem?_getD,
    List.getElem?_set_self (by rw [pretty_bins_length]; omega)]
  rfl

theorem binIndex_zero_of_regenerated (p : ℚ) (hp : 0 < p) :
    binIndex ((pretty_bins 0 p).set 0 (1 / 100)) 0 = none := by
  have hgd : ∀ i : Nat, i < 9 →
      ¬(((pretty_bins 0 p).set 0 (1 / 100)).getD i 0 ≤ 0) := by
    intro i hi
    rcases Nat.eq_zero_or_pos i with h0 | h0
    · subst h0
      rw [set_pretty_bins_getD_zero]
      norm_num
    · rw [List.getD_eq_getElem?_getD, List.getElem?_set_ne (by omega),
        ← List.getD_eq_getElem?_getD, pretty_bins_getD _ _ _ hi]
      have hi' : (0 : ℚ) < i := by exact_mod_cast h0
      have hpos : (0 : ℚ) < (p - 0) * i / 8 :=
        div_pos (mul_pos (by simpa using hp) hi') (by norm_num)
      intro hcon
      linarith
  unfold binIndex
  rw [List.find?_eq_none]
  intro i hi
  have hi9 : i < 9 := by
    simp only [List.mem_range, List.length_set, pretty_bins_length] at hi
    omega
  intro hpi
  rw [Bool.and_eq_true, decide_eq_true_eq, decide_eq_true_eq] at hpi
  exact hgd i hi9 hpi.1

/-- Claim C3 counterexample: daily base ramp `[0, 1, 2]`, percentile 5
(non-NaN and above the top edge 2) — the bins are regenerated with the
bottom edge forced to `0.01`, yet the data value exactly 0 falls in no
bin at all (`binIndex` is `none`): it is left unclassified, not inside
the lowest bin. -/
theorem adaptive_zero_cex :
    ([0, 1, 2] : List ℚ).getLastD 0 < 5 ∧
    (chooseBins [0, 1, 2] [0, 1, 2] ⟨2020, 6, 1⟩ ⟨2020, 6, 1⟩
      "avg_loss" (some 5)).getD 0 0 = 1 / 100 ∧
    binIndex (chooseBins [0, 1, 2] [0, 1, 2] ⟨2020, 6, 1⟩ ⟨2020, 6, 1⟩
      "avg_loss" (some 5)) 0 = none := by
  have hlast : ([0, 1, 2] : List ℚ).getLastD 0 = 2 := rfl
  have h1 : (("avg_loss" : String) == "dt") = false := by decide
  have h2 : (("avg_loss" : String) == "slp") = false := by decide
  have hb : chooseBins [0, 1, 2] [0, 1, 2] ⟨2020, 6, 1⟩ ⟨2020, 6, 1⟩
      "avg_loss" (some 5) = (pretty_bins 0 5).set 0 (1 / 100) := by
    simp [chooseBins, h1, h2]
    intro hcon
    exact absurd hcon (by norm_num)
  refine ⟨by rw [hlast]; norm_num, ?_, ?_⟩
  · rw [hb, set_pretty_bins_getD_zero]
  · rw [hb]
    exact binIndex_zero_of_regenerated 5 (by norm_num)

/-- Claim C3 (amended): for a continuous variable whose realized 95th
percentile `p` exceeds the (nonnegative) top edge of the chosen base
ramp, the bins are regenerated from 0 to `p` and the bottom edge is
forced to `0.01`, strictly greater than 0; however a data value of
exactly 0 then falls strictly below the bottom edge and is classified
into no bin (it maps to the out-of-range under color), rather than
falling inside the lowest bin. -/
theorem adaptive_rebin_amended (rampDaily rampPeriod : List ℚ)
    (ts ts2 : DateT) (v : String) (p : ℚ) (bins : List ℚ)
    (hdt : v ≠ "dt") (hslp : v ≠ "slp")
    (hnn : 0 ≤ (if ts = ts2 then rampDaily else rampPeriod).getLastD 0)
    (htop : (if ts = ts2 then rampDaily else rampPeriod).getLastD 0 < p)
    (hbins : bins = chooseBins rampDaily rampPeriod ts ts2 v (some p)) :
    bins = (pretty_bins 0 p).set 0 (1 / 100) ∧
    bins.getD 0 0 = 1 / 100 ∧ 0 < bins.getD 0 0 ∧
    binIndex bins 0 = none := by
  have hv1 : (v == "dt") = false := by simp [hdt]
  have hv2 : (v == "slp") = false := by simp [hslp]
  have hp : 0 < p := lt_of_le_of_lt hnn htop
  have htop' :
      (if ts = ts2 then rampDaily else rampPeriod).getLast?.getD 0 < p := by
    simpa using htop
  subst hbins
  have hb : chooseBins rampDaily rampPeriod ts ts2 v (some p) =
      (pretty_bins 0 p).set 0 (1 / 100) := by
    simp [chooseBins, hv1, hv2, htop']
  rw [hb, set_pretty_bins_getD_zero]
  exact ⟨rfl, rfl, by norm_num, binIndex_zero_of_regenerated p hp⟩

/-- Witness for the amended C3: period ramp `[0, 1, 2]`, percentile 4 —
the regenerated bins start at `0.01` and the value 0 is unclassified. -/
theorem adaptive_rebin_amended_witness :
    chooseBins [0, 1, 2] [0, 1, 2] ⟨2020, 6, 1⟩ ⟨2020, 6, 2⟩
        "qc_precip" (some 4) = (pretty_bins 0 4).set 0 (1 / 100) ∧
    (chooseBins [0, 1, 2] [0, 1, 2] ⟨2020, 6, 1⟩ ⟨2020, 6, 2⟩
        "qc_precip" (some 4)).getD 0 0 = 1 / 100 ∧
    0 < (chooseBins [0, 1, 2] [0, 1, 2] ⟨2020, 6, 1⟩ ⟨2020, 6, 2⟩
        "qc_precip" (some 4)).getD 0 0 ∧
    binIndex (chooseBins [0, 1, 2] [0, 1, 2] ⟨2020, 6, 1⟩ ⟨2020, 6, 2⟩
        "qc_precip" (some 4)) 0 = none :=
  adaptive_rebin_amended [0, 1, 2] [0, 1, 2] ⟨2020, 6, 1⟩ ⟨2020, 6, 2⟩
    "qc_precip" 4 _ (by decide) (by decide)
    (by rw [if_neg (by decide), show (([0, 1, 2] : List ℚ).getLastD 0) = 2
        from rfl]; norm_num)
    (by rw [if_neg (by decide), show (([0, 1, 2] : List ℚ).getLastD 0) = 2
        from rfl]; norm_num)
    rfl

/-- Claim C7 counterexample: with `cruse` set and no progress-bar mean
available, the overlay does not fail silently — the crude-unit step
raises a `TypeError` (modelled as `Except.error`), so the request does
not complete successfully. -/
theorem cruse_overlay_cex :
    annotatorPhase false true [3] =
      .error "TypeError: unsupported operand type(s) for /" := by
  rfl

/-- Claim C7 (amended): with `cruse` and no progress-bar mean
(`progressbar == false`) the crude-unit step raises a `TypeError` and
the request fails, rather than silently skipping the badge; when the
mean is available the badge shows the mean divided by 5.0; with `cruse`
unset no badge is produced. -/
theorem cruse_overlay_amended :
    ∀ data : List ℚ,
      annotatorPhase false true data =
        .error "TypeError: unsupported operand type(s) for /" ∧
      annotatorPhase true true data = .ok (some (listMean data / 5)) ∧
      (∀ pb : Bool, annotatorPhase pb false data = .ok none) := by
  intro data
  refine ⟨rfl, rfl, ?_⟩
  intro pb
  simp [annotatorPhase, cruseStep]

theorem digitChar_isDigit {d : Nat} (h : d < 10) :
    (digitChar d).isDigit = true := by
  interval_cases d <;> decide

theorem digitChar_inj {a b : Nat} (ha : a < 10) (hb : b < 10)
    (h : digitChar a = digitChar b) : a = b := by
  interval_cases a <;> interval_cases b <;> revert h <;> decide

theorem digitChar_ne_zeroChar {d : Nat} (hd : d < 10) (h0 : d ≠ 0) :
    digitChar d ≠ '0' := by
  interval_cases d <;> revert h0 <;> decide

theorem isDigit_ne (c : Char) (h : c.isDigit = true) :
    c ≠ '/' ∧ c ≠ '-' ∧ c ≠ 'N' := by
  refine ⟨?_, ?_, ?_⟩ <;> intro hc <;> subst hc <;> exact absurd h (by decide)

theorem natChars_zero : natChars 0 = ['0'] := rfl

theorem natChars_ne_nil (n : Nat) : natChars n ≠ [] := by
  unfold natChars
  split_ifs with h
  · simp
  · simp [Nat.digits_ne_nil_iff_ne_zero.mpr h]

theorem natChars_digits (n : Nat) :
    ∀ c ∈ natChars n, c.isDigit = true := by
  intro c hc
  unfold natChars at hc
  split_ifs at hc with h
  · simp at hc
    subst hc
    decide
  · simp only [List.mem_reverse, List.mem_map] at hc
    obtain ⟨d, hd, rfl⟩ := hc
    exact digitChar_isDigit (Nat.digits_lt_base (by norm_num) hd)

theorem natChars_head (n : Nat) (hn : n ≠ 0) :
    ∃ d rest, natChars n = digitChar d :: rest ∧ d ≠ 0 ∧ d < 10 := by
  have hne : Nat.digits 10 n ≠ [] := Nat.digits_ne_nil_iff_ne_zero.mpr hn
  obtain ⟨d, M, hrev⟩ : ∃ d M, (Nat.digits 10 n).reverse = d :: M := by
    cases hr : (Nat.digits 10 n).reverse with
    | nil => exact absurd (by simpa using congrArg List.reverse hr) hne
    | cons d M => exact ⟨d, M, rfl⟩
  have hd9 : d < 10 := by
    have : d ∈ Nat.digits 10 n := by
      rw [← List.mem_reverse, hrev]
      exact List.mem_cons_self d M
    exact Nat.digits_lt_base (by norm_num) this
  have hd0 : d ≠ 0 := by
    have h1 : (Nat.digits 10 n).getLast? = some d := by
      rw [← List.head?_reverse, hrev]
      rfl
    rw [List.getLast?_eq_getLast _ hne, Option.some_inj] at h1
    rw [← h1]
    exact Nat.getLast_digit_ne_zero 10 hn
  refine ⟨d, M.map digitChar, ?_, hd0, hd9⟩
  unfold natChars
  rw [if_neg hn, ← List.map_reverse, hrev, List.map_cons]

theorem map_digitChar_inj {l1 l2 : List Nat}
    (h1 : ∀ x ∈ l1, x < 10) (h2 : ∀ x ∈ l2, x < 10)
    (h : l1.map digitChar = l2.map digitChar) : l1 = l2 := by
  induction l1 generalizing l2 with
  | nil =>
    cases l2 with
    | nil => rfl
    | cons b t => simp at h
  | cons a t ih =>
    cases l2 with
    | nil => simp at h
    | cons b u =>
      simp only [List.map_cons, List.cons.injEq] at h
      have ha : a < 10 := h1 a (List.mem_cons_self a t)
      have hb : b < 10 := h2 b (List.mem_cons_self b u)
      have : a = b := digitChar_inj ha hb h.1
      subst this
      rw [ih (fun x hx => h1 x (List.mem_cons_of_mem a hx))
        (fun x hx => h2 x (List.mem_cons_of_mem a hx)) h.2]

theorem natChars_inj {a b : Nat} (h : natChars a = natChars b) : a = b := by
  by_cases ha : a = 0 <;> by_cases hb : b = 0
  · omega
  · obtain ⟨d, rest, hb', hd0, hd9⟩ := natChars_head b hb
    rw [ha, natChars_zero, hb'] at h
    exact absurd (List.head_eq_of_cons_eq h).symm (digitChar_ne_zeroChar hd9 hd0)
  · obtain ⟨d, rest, ha', hd0, hd9⟩ := natChars_head a ha
    rw [hb, natChars_zero, ha'] at h
    exact absurd (List.head_eq_of_cons_eq h) (digitChar_ne_zeroChar hd9 hd0)
  · unfold natChars at h
    rw [if_neg ha, if_neg hb, List.reverse_inj] at h
    have := map_digitChar_inj
      (fun x hx => Nat.digits_lt_base (by norm_num) hx)
      (fun x hx => Nat.digits_lt_base (by norm_num) hx) h
    exact Nat.digits_inj_iff.mp this

theorem natChars_length_lt10 {n : Nat} (h : n < 10) :
    (natChars n).length = 1 := by
  unfold natChars
  split_ifs with h0
  · rfl
  · rw [Nat.digits_of_lt 10 n h0 h]
    rfl

theorem pad2_length {n : Nat} (h : n < 100) : (pad2 n).length = 2 := by
  unfold pad2
  split_ifs with h10
  · rw [List.length_cons, natChars_length_lt10 h10]
  · unfold natChars
    rw [if_neg (by omega), List.length_reverse, List.length_map,
      Nat.digits_len 10 n (by norm_num) (by omega),
      Nat.log_eq_of_pow_le_of_lt_pow (by simpa using by omega : 10 ^ 1 ≤ n)
        (by simpa using h)]

theorem pad2_digits (n : Nat) : ∀ c ∈ pad2 n, c.isDigit = true := by
  intro c hc
  unfold pad2 at hc
  split_ifs at hc with h10
  · rcases List.mem_cons.mp hc with rfl | hc
    · decide
    · exact natChars_digits n c hc
  · exact natChars_digits n c hc

theorem pad2_inj {a b : Nat} (ha : a < 100) (hb : b < 100)
    (h : pad2 a = pad2 b) : a = b := by
  unfold pad2 at h
  split_ifs at h with h1 h2 h2
  · exact natChars_inj (List.tail_eq_of_cons_eq h)
  · obtain ⟨d, rest, hb', hd0, hd9⟩ := natChars_head b (by omega)
    rw [hb'] at h
    exact absurd (List.head_eq_of_cons_eq h).symm
      (digitChar_ne_zeroChar hd9 hd0)
  · obtain ⟨d, rest, ha', hd0, hd9⟩ := natChars_head a (by omega)
    rw [ha'] at h
    exact absurd (List.head_eq_of_cons_eq h) (digitChar_ne_zeroChar hd9 hd0)
  · exact natChars_inj h

theorem dateChars_digits (d : DateT) :
    ∀ c ∈ dateChars d, c.isDigit = true := by
  intro c hc
  unfold dateChars at hc
  rcases List.mem_append.mp hc with hc | hc
  · rcases List.mem_append.mp hc with hc | hc
    · exact natChars_digits _ c hc
    · exact pad2_digits _ c hc
  · exact pad2_digits _ c hc

theorem dateChars_inj {d1 d2 : DateT}
    (hm1 : d1.month < 100) (hd1 : d1.day < 100)
    (hm2 : d2.month < 100) (hd2 : d2.day < 100)
    (h : dateChars d1 = dateChars d2) : d1 = d2 := by
  unfold dateChars at h
  rw [List.append_assoc, List.append_assoc] at h
  have hlen : (natChars d1.year).length = (natChars d2.year).length := by
    have hl := congrArg List.length h
    simp only [List.length_append] at hl
    rw [pad2_length hm1, pad2_length hd1, pad2_length hm2,
      pad2_length hd2] at hl
    omega
  obtain ⟨hy, hrest⟩ := List.append_inj h hlen
  obtain ⟨hm, hd⟩ := List.append_inj hrest
    (by rw [pad2_length hm1, pad2_length hm2])
  obtain ⟨y1, m1, a1⟩ := d1
  obtain ⟨y2, m2, a2⟩ := d2
  simp only [DateT.mk.injEq]
  exact ⟨natChars_inj hy, pad2_inj hm1 hm2 hm, pad2_inj hd1 hd2 hd⟩

theorem intChars_inj {a b : Int} (h : intChars a = intChars b) : a = b := by
  unfold intChars at h
  split_ifs at h with h1 h2 h2
  · have := natChars_inj (List.tail_eq_of_cons_eq h)
    omega
  · have hm : '-' ∈ natChars b.toNat := by
      rw [← h]
      exact List.mem_cons_self '-' _
    exact absurd (natChars_digits _ '-' hm) (by decide)
  · have hm : '-' ∈ natChars a.toNat := by
      rw [h]
      exact List.mem_cons_self '-' _
    exact absurd (natChars_digits _ '-' hm) (by decide)
  · have := natChars_inj h
    omega

theorem intChars_ne_slash (i : Int) : ∀ c ∈ intChars i, c ≠ '/' := by
  intro c hc
  unfold intChars at hc
  split_ifs at hc with h1
  · rcases List.mem_cons.mp hc with rfl | hc
    · decide
    · exact (isDigit_ne c (natChars_digits _ c hc)).1
  · exact (isDigit_ne c (natChars_digits _ c hc)).1

theorem fmtHuc_ne_slash (huc : Option String) (ho : hucOK huc) :
    ∀ c ∈ fmtHuc huc, c ≠ '/' := by
  intro c hc
  cases huc with
  | none =>
    have hmem : c ∈ ['N', 'o', 'n', 'e'] := hc
    simp only [List.mem_cons, List.not_mem_nil, or_false] at hmem
    rcases hmem with rfl | rfl | rfl | rfl <;> decide
  | some s =>
    exact (isDigit_ne c (ho s rfl c hc)).1

theorem fmtHuc_inj {h1 h2 : Option String}
    (ho1 : hucOK h1) (ho2 : hucOK h2)
    (h : fmtHuc h1 = fmtHuc h2) : h1 = h2 := by
  cases h1 with
  | none =>
    cases h2 with
    | none => rfl
    | some s =>
      have hN : 'N' ∈ s.data := by
        rw [show s.data = fmtHuc (some s) from rfl, ← h]
        decide
      exact absurd (ho2 s rfl 'N' hN) (by decide)
  | some s =>
    cases h2 with
    | none =>
      have hN : 'N' ∈ s.data := by
        rw [show s.data = fmtHuc (some s) from rfl, h]
        decide
      exact absurd (ho1 s rfl 'N' hN) (by decide)
    | some t =>
      exact congrArg some (String.ext h)

theorem append_slash_inj {a1 r1 a2 r2 : List Char}
    (ha1 : ∀ c ∈ a1, c ≠ '/') (ha2 : ∀ c ∈ a2, c ≠ '/')
    (h : a1 ++ '/' :: r1 = a2 ++ '/' :: r2) : a1 = a2 ∧ r1 = r2 := by
  induction a1 generalizing a2 with
  | nil =>
    cases a2 with
    | nil => simpa using h
    | cons b t =>
      simp only [List.nil_append, List.cons_append, List.cons.injEq] at h
      exact absurd h.1.symm (ha2 b (List.mem_cons_self b t))
  | cons a t ih =>
    cases a2 with
    | nil =>
      simp only [List.nil_append, List.cons_append, List.cons.injEq] at h
      exact absurd h.1 (ha1 a (List.mem_cons_self a t))
    | cons b u =>
      simp only [List.cons_append, List.cons.injEq] at h
      obtain ⟨ht, hr⟩ := ih (fun c hc => ha1 c (List.mem_cons_of_mem a hc))
        (fun c hc => ha2 c (List.mem_cons_of_mem b hc)) h.2
      exact ⟨by rw [h.1, ht], hr⟩

theorem mkDate_some {y m d : Nat} {t : DateT} (h : mkDate y m d = some t) :
    t = ⟨y, m, d⟩ ∧ 1 ≤ y ∧ 1 ≤ m ∧ m ≤ 12 ∧ 1 ≤ d ∧ d ≤ 31 := by
  unfold mkDate at h
  split_ifs at h with hv
  · have ht : t = ⟨y, m, d⟩ := by
      injection h with h
      exact h.symm
    have hdm : daysInMonth y m ≤ 31 := by
      unfold daysInMonth
      split_ifs <;> omega
    unfold isValidDate at hv
    simp only [Bool.and_eq_true, decide_eq_true_eq] at hv
    exact ⟨ht, by omega, by omega, by omega, by omega, by omega⟩

theorem getTsTs2_some {env : Env} {ts ts2 : DateT}
    (h : getTsTs2 env = some (ts, ts2)) :
    ts = ⟨env.year, env.month, env.day⟩ ∧
    ts2 = ⟨env.year2.getD env.year, env.month2.getD env.month,
      env.day2.getD env.day⟩ ∧
    ts.month ≤ 12 ∧ ts.day ≤ 31 ∧ ts2.month ≤ 12 ∧ ts2.day ≤ 31 := by
  simp only [getTsTs2] at h
  cases h1 : mkDate env.year env.month env.day with
  | none =>
    rw [h1] at h
    cases h
  | some t1 =>
    cases h2 : mkDate (env.year2.getD env.year) (env.month2.getD env.month)
        (env.day2.getD env.day) with
    | none =>
      rw [h1, h2] at h
      cases h
    | some t2 =>
      rw [h1, h2] at h
      injection h with h
      injection h with ha hb
      obtain ⟨ht1, _, _, hm1, _, hd1⟩ := mkDate_some h1
      obtain ⟨ht2, _, _, hm2, _, hd2⟩ := mkDate_some h2
      subst ha hb
      exact ⟨ht1, ht2, by rw [ht1]; exact hm1, by rw [ht1]; exact hd1,
        by rw [ht2]; exact hm2, by rw [ht2]; exact hd2⟩

/-- Claim C10: `get_ts_ts2` never enforces the window-ordering
invariant: on a valid calendar input whose assembled end date precedes
the start date it returns the pair unchanged (no swap, no error) with
`end < start`, and the freshness gate accepts such a reversed window
whenever both dates are at most the marker date and the start is at
least the floor. -/
theorem get_ts_ts2_no_ordering (env : Env) (ts ts2 : DateT)
    (h : getTsTs2 env = some (ts, ts2)) (hrev : dateLT ts2 ts = true) :
    ts = ⟨env.year, env.month, env.day⟩ ∧
    ts2 = ⟨env.year2.getD env.year, env.month2.getD env.month,
      env.day2.getD env.day⟩ ∧
    dateLT ts2 ts = true ∧
    (∀ marker, dateLE ts (lastDate marker) = true →
      dateLE ts2 (lastDate marker) = true →
      dateLE floorDate ts = true →
      gateFails ts ts2 marker = false) := by
  obtain ⟨hts, hts2, _⟩ := getTsTs2_some h
  refine ⟨hts, hts2, hrev, ?_⟩
  intro marker hle1 hle2 hfl
  rw [dateLE_iff] at hle1 hle2 hfl
  simp only [gateFails, Bool.or_eq_false_iff]
  refine ⟨⟨?_, ?_⟩, ?_⟩ <;> rw [dateLT_false_iff] <;> omega

/-- Witness for C10: start 2020-06-15 with `day2 = 1` assembles the
reversed window (2020-06-15, 2020-06-01), which is returned unswapped
and passes the freshness gate under a 2024-01-01 marker. -/
theorem get_ts_ts2_no_ordering_witness :
    (⟨2020, 6, 15⟩ : DateT) = ⟨2020, 6, 15⟩ ∧
    (⟨2020, 6, 1⟩ : DateT) = ⟨2020, 6, 1⟩ ∧
    dateLT ⟨2020, 6, 1⟩ ⟨2020, 6, 15⟩ = true ∧
    (∀ marker, dateLE ⟨2020, 6, 15⟩ (lastDate marker) = true →
      dateLE ⟨2020, 6, 1⟩ (lastDate marker) = true →
      dateLE floorDate ⟨2020, 6, 15⟩ = true →
      gateFails ⟨2020, 6, 15⟩ ⟨2020, 6, 1⟩ marker = false) :=
  get_ts_ts2_no_ordering
    ⟨100, 2020, 6, 15, none, none, some 1, 0, "avg_loss", none, 10,
      false, false, false, false, false, false⟩
    ⟨2020, 6, 15⟩ ⟨2020, 6, 1⟩ rfl (by decide)

/-- Claim C9: two non-overview request environments that agree on the
region, all six raw date fields, the scenario and the variable produce
the same cache key, whatever their `averaged`, `progressbar`, `cruse`,
`iowa`, `mn` flags, `dpi` or `zoom` — the key depends only on region,
resolved dates, scenario and variable, even though those flags change
the rendered image. -/
theorem mckey_ignores_flags (e1 e2 : Env)
    (hov1 : e1.overview = false) (hov2 : e2.overview = false)
    (hhuc : e1.huc = e2.huc) (hy : e1.year = e2.year)
    (hm : e1.month = e2.month) (hd : e1.day = e2.day)
    (hy2 : e1.year2 = e2.year2) (hm2 : e1.month2 = e2.month2)
    (hd2 : e1.day2 = e2.day2) (hs : e1.scenario = e2.scenario)
    (hv : e1.v = e2.v) :
    getMckey e1 = getMckey e2 := by
  unfold getMckey getTsTs2
  rw [hy, hm, hd, hy2, hm2, hd2, hhuc, hs, hv, hov1, hov2]
  simp

/-- Witness for C9: flipping all five flags and the dpi leaves the
cache key unchanged. -/
theorem mckey_ignores_flags_witness :
    getMckey ⟨100, 2020, 6, 1, none, none, none, 0, "avg_loss",
      some "070801050306", 10, false, false, false, false, false,
      false⟩ =
    getMckey ⟨250, 2020, 6, 1, none, none, none, 0, "avg_loss",
      some "070801050306", 3, false, true, true, true, true, true⟩ :=
  mckey_ignores_flags _ _ rfl rfl rfl rfl rfl rfl rfl rfl rfl rfl rfl

/-- Claim C8: `get_mckey` is a pure function of the request
environment (identical environments give identical keys); for
non-overview requests the key determines — and hence any change to one
of them changes the key — the region, both resolved dates, the scenario
and the variable, given valid dates and digit-string region ids; and
for overview requests the key depends only on the region and the zoom
level. -/
theorem get_mckey_correct :
    (∀ e1 e2 : Env, e1 = e2 → getMckey e1 = getMckey e2) ∧
    (∀ (e1 e2 : Env) (ts1 ts2 u1 u2 : DateT),
      e1.overview = false → e2.overview = false →
      hucOK e1.huc → hucOK e2.huc →
      getTsTs2 e1 = some (ts1, ts2) → getTsTs2 e2 = some (u1, u2) →
      getMckey e1 = getMckey e2 →
      e1.huc = e2.huc ∧ ts1 = u1 ∧ ts2 = u2 ∧
        e1.scenario = e2.scenario ∧ e1.v = e2.v) ∧
    (∀ e1 e2 : Env, e1.overview = true → e2.overview = true →
      e1.huc = e2.huc → e1.zoom = e2.zoom →
      (getTsTs2 e1).isSome = true → (getTsTs2 e2).isSome = true →
      getMckey e1 = getMckey e2) := by
  refine ⟨fun e1 e2 h => by rw [h], ?_, ?_⟩
  · intro e1 e2 ts1 ts2 u1 u2 hov1 hov2 ho1 ho2 ht1 ht2 hkey
    obtain ⟨_, _, htm1, htd1, htm2, htd2⟩ := getTsTs2_some ht1
    obtain ⟨_, _, hum1, hud1, hum2, hud2⟩ := getTsTs2_some ht2
    unfold getMckey at hkey
    rw [ht1, ht2, hov1, hov2] at hkey
    simp only [Bool.false_eq_true, if_false, Option.some.injEq,
      String.ext_iff] at hkey
    have hkey2 := List.append_cancel_left hkey
    simp only [List.cons_append] at hkey2
    have hdns1 : ∀ c ∈ dateChars ts1, c ≠ '/' :=
      fun c hc => (isDigit_ne c (dateChars_digits _ c hc)).1
    have hdns2 : ∀ c ∈ dateChars ts2, c ≠ '/' :=
      fun c hc => (isDigit_ne c (dateChars_digits _ c hc)).1
    have hdnu1 : ∀ c ∈ dateChars u1, c ≠ '/' :=
      fun c hc => (isDigit_ne c (dateChars_digits _ c hc)).1
    have hdnu2 : ∀ c ∈ dateChars u2, c ≠ '/' :=
      fun c hc => (isDigit_ne c (dateChars_digits _ c hc)).1
    obtain ⟨hF, hrest1⟩ := append_slash_inj (fmtHuc_ne_slash _ ho1)
      (fmtHuc_ne_slash _ ho2) hkey2
    obtain ⟨hD1, hrest2⟩ := append_slash_inj hdns1 hdnu1 hrest1
    obtain ⟨hD2, hrest3⟩ := append_slash_inj hdns2 hdnu2 hrest2
    obtain ⟨hS, hV⟩ := append_slash_inj (intChars_ne_slash _)
      (intChars_ne_slash _) hrest3
    exact ⟨fmtHuc_inj ho1 ho2 hF,
      dateChars_inj (by omega) (by omega) (by omega) (by omega) hD1,
      dateChars_inj (by omega) (by omega) (by omega) (by omega) hD2,
      intChars_inj hS, String.ext hV⟩
  · intro e1 e2 hov1 hov2 hhuc hzoom hs1 hs2
    obtain ⟨p1, hp1⟩ := Option.isSome_iff_exists.mp hs1
    obtain ⟨p2, hp2⟩ := Option.isSome_iff_exists.mp hs2
    obtain ⟨a1, b1⟩ := p1
    obtain ⟨a2, b2⟩ := p2
    unfold getMckey
    rw [hp1, hp2, hov1, hov2, hhuc, hzoom]
    simp

/-- Witness for C8: two otherwise identical requests that differ only
in the variable get different cache keys. -/
theorem get_mckey_correct_witness :
    getMckey ⟨100, 2020, 6, 1, none, none, none, 0, "avg_loss", none,
      10, false, false, false, false, false, false⟩ ≠
    getMckey ⟨100, 2020, 6, 1, none, none, none, 0, "avg_runoff", none,
      10, false, false, false, false, false, false⟩ := by
  intro hkey
  have h := get_mckey_correct.2.1
    ⟨100, 2020, 6, 1, none, none, none, 0, "avg_loss", none, 10,
      false, false, false, false, false, false⟩
    ⟨100, 2020, 6, 1, none, none, none, 0, "avg_runoff", none, 10,
      false, false, false, false, false, false⟩
    ⟨2020, 6, 1⟩ ⟨2020, 6, 1⟩ ⟨2020, 6, 1⟩ ⟨2020, 6, 1⟩ rfl rfl
    (fun s hs => by cases hs) (fun s hs => by cases hs) rfl rfl hkey
  exact absurd h.2.2.2.2 (by decide)

end Depbackend
